import Mathlib

/-!
Shallow embedding of the InfoHubv3 storefront widget (src/react/InfoHubv3.tsx,
the latest of the near-duplicate versions in the file, i.e. the one using
`showInfoHub`, the copying `removeInactivePosts` and the Map-based
`removeDuplicatePosts`).  JavaScript strings are modelled as Lean `String`
values operated on character-wise; JS numbers holding millisecond timestamps
are modelled as `Int`; `Date.parse` is modelled as an explicit environment
parameter `dateParse : String → Option Int` (`none` models `NaN`).
-/

namespace InfoHub

/-- Character-level model of JavaScript `String.prototype.toLowerCase` (the
widget only lowercases ASCII keyword and URL text). -/
def jsToLowerCase (s : String) : String :=
  String.mk (s.toList.map Char.toLower)

/-- Helper for `listIncludes`: the first list starts with the second list. -/
def listStartsWith : List Char → List Char → Bool
  | _, [] => true
  | [], _ :: _ => false
  | a :: l, b :: p => a = b && listStartsWith l p

/-- Character-level model of JavaScript `String.prototype.includes`: the
pattern `p` occurs contiguously somewhere in `l`, i.e. starts at some
position of `l`. -/
def listIncludes : List Char → List Char → Bool
  | [], p => listStartsWith [] p
  | a :: rest, p => listStartsWith (a :: rest) p || listIncludes rest p

/-- JS `haystack.includes(needle)` on the `String` interface. -/
def jsIncludes (haystack needle : String) : Bool :=
  listIncludes haystack.toList needle.toList

/-- Split a character list at every occurrence of `sep` (used to model
`URLSearchParams` splitting on `&` and `=`). -/
def splitOnChar (sep : Char) : List Char → List (List Char)
  | [] => [[]]
  | c :: rest =>
    match splitOnChar sep rest with
    | [] => [[]]
    | g :: gs => if c = sep then [] :: g :: gs else (c :: g) :: gs

/-- Rejoin character groups with a separator character (used for the part of a
query-parameter value after the first `=`). -/
def joinWithChar (sep : Char) : List (List Char) → List Char
  | [] => []
  | [g] => g
  | g :: gs => g ++ sep :: joinWithChar sep gs

/-- Model of `new URLSearchParams(search).get(key)` for query strings without
percent-escapes: strip a leading `?`, split on `&`, split each pair at `=`
(the value is everything after the first `=`), return the first value bound to
`key`, or `none` when the key is absent. -/
def urlParamsGet (search key : String) : Option String :=
  let raw := match search.toList with
    | '?' :: r => r
    | l => l
  let pairs := splitOnChar '&' raw
  (pairs.filterMap (fun p =>
    match splitOnChar '=' p with
    | [] => none
    | k :: rest =>
      if k = key.toList then some (String.mk (joinWithChar '=' rest)) else none)).head?

/-- PostObject of the source: a post as configured by the author. -/
structure PostObject where
  startDate : String
  active : Bool
  __editorItemTitle : String
  image : String
  url : String
deriving DecidableEq

/-- KeywordString of the source: one keyword entry. -/
structure KeywordString where
  __editorItemTitle : String
deriving DecidableEq

/-- KeywordObject of the source: one article topic with its keywords, its
priority tier (`topicType`) and its posts. -/
structure KeywordObject where
  __editorItemTitle : String
  keywords : List KeywordString
  topicType : Int
  posts : List PostObject
deriving DecidableEq

/-- KeywordInfoObject of the source: a lowercased keyword paired with the
index of the topic it came from. -/
structure KeywordInfoObject where
  keyword : String
  topic : Nat
deriving DecidableEq

/-- TopicAndPriority of the source: a topic index paired with its tier. -/
structure TopicAndPriority where
  topic : Int
  priority : Int
deriving DecidableEq

/-- Device bucket held in the `device` ref. -/
inductive Device where
  | desktop
  | mobile
deriving DecidableEq

def maximumDesktopPosts : Nat := 10

def maximumMobilePosts : Nat := 6

/-- Default topic used to totalize the `articles[topic]` list indexing; the
pipeline only ever indexes with positions produced by enumerating `articles`,
so this default is never consulted on the runs the theorems talk about. -/
def dfltArticle : KeywordObject :=
  { __editorItemTitle := "", keywords := [], topicType := 0, posts := [] }

/-- Model of `[...new Set(list)]`: deduplicate keeping the first occurrence of
each element, in first-occurrence order (JS `Set` iterates in insertion
order). -/
def jsSetDedup {α : Type} [DecidableEq α] (l : List α) : List α :=
  l.foldl (fun acc t => if t ∈ acc then acc else acc ++ [t]) []

/-- Component state visible to the embedded pipeline: the `posts` and
`loading` React state together with the `device` and `activePriorityPosts`
refs (the refs persist across runs, which is why a run takes the previous
state as input). -/
structure RunResult where
  loading : Bool
  posts : List PostObject
  device : Device
  activePriorityPosts : Nat
deriving DecidableEq

/-- State at initial mount: `loading` true, no posts, `device` ref starts as
"mobile", `activePriorityPosts` ref starts at 0. -/
def initialState : RunResult :=
  { loading := true, posts := [], device := Device.mobile, activePriorityPosts := 0 }

/-- The comparator of `sortTopics`: `(a, b) => a.priority > b.priority`, a
boolean that the sort machinery coerces to the number 1 (true) or 0 (false).
It never returns a negative value. -/
def comparisonFunction (a b : TopicAndPriority) : Int :=
  if a.priority > b.priority then 1 else 0

/-- Length of the maximal initial non-descending run of a list under an
integer comparator, as computed by V8's TimSort run detection: the run is
extended while comparing the next element against the previous one does not
return a negative value. -/
def ascRunLength {α : Type} (c : α → α → Int) : List α → Nat
  | [] => 0
  | [_] => 1
  | a :: b :: rest =>
    if 0 ≤ c b a then ascRunLength c (b :: rest) + 1 else 1

/-- Insertion position used by binary insertion sort under V8's search rule
(`order < 0` moves the right bound, otherwise the left bound): on a sorted
list this is the first index whose element compares greater than the pivot. -/
def binInsertIdx {α : Type} (c : α → α → Int) (pivot : α) (sorted : List α) : Nat :=
  match sorted.findIdx? (fun x => decide (c pivot x < 0)) with
  | some i => i
  | none => sorted.length

/-- Insert an element at a given position of a list. -/
def insertAt {α : Type} (i : Nat) (a : α) (l : List α) : List α :=
  l.take i ++ a :: l.drop i

/-- Binary insertion sort driven by an integer comparator. -/
def binInsertionSort {α : Type} (c : α → α → Int) (l : List α) : List α :=
  l.foldl (fun sorted a => insertAt (binInsertIdx c a sorted) a sorted) []

/-- Model of `Array.prototype.sort(comparefn)` as implemented by V8 (TimSort).
TimSort first detects the maximal initial non-descending natural run, using a
negative comparator result to detect descent; when that run spans the whole
array the input counts as already sorted and is returned unchanged.  Because
`comparisonFunction` is a coerced boolean it never returns a negative value,
so every input falls into that unchanged case (`ascRunLength_comparisonFunction`
below); the binary-insertion branch only totalizes the remaining case, which
is reached only when some comparison is negative. -/
def v8ArraySort {α : Type} (c : α → α → Int) (l : List α) : List α :=
  if ascRunLength c l = l.length then l else binInsertionSort c l

/-- buildKeywordList's loop: every keyword of every topic, lowercased and
tagged with the index of the topic it came from, in topic order then keyword
order. -/
def buildKeywordListAux (articles : List KeywordObject) (index : Nat) :
    List KeywordInfoObject :=
  match articles with
  | [] => []
  | a :: rest =>
    a.keywords.map (fun kw => ⟨jsToLowerCase kw.__editorItemTitle, index⟩)
      ++ buildKeywordListAux rest (index + 1)

/-- buildKeywordList of the source. -/
def buildKeywordList (articles : List KeywordObject) : List KeywordInfoObject :=
  buildKeywordListAux articles 0

/-- The topicBuilder computation of searchCurrentURL: map every keyword entry
to its topic index when the current URL includes the keyword and to the
sentinel -1 otherwise, then filter the sentinel away. -/
def searchTopicBuilder (keywordList : List KeywordInfoObject) (currentURL : String) :
    List Int :=
  (keywordList.map (fun kw =>
    if jsIncludes currentURL kw.keyword then (kw.topic : Int) else -1)).filter
      (fun t => decide (t ≠ -1))

/-- The deduplicated matched-topic list (`finalTopics`) for a given
configuration and location, scanning `pathname + search` lowercased. -/
def matchedTopics (articles : List KeywordObject) (pathname search : String) :
    List Int :=
  jsSetDedup (searchTopicBuilder (buildKeywordList articles)
    (jsToLowerCase (pathname ++ search)))

/-- sortTopics of the source: pair every matched topic index with its
`topicType` tier, sort with the boolean comparator, and project the indices
back out. -/
def sortTopics (articles : List KeywordObject) (finalTopics : List Int) : List Int :=
  let unsortedTopics := finalTopics.map (fun topic =>
    ({ topic := topic, priority := (articles.getD topic.toNat dfltArticle).topicType }
      : TopicAndPriority))
  let sortedTopicsWithPriority := v8ArraySort comparisonFunction unsortedTopics
  sortedTopicsWithPriority.map (fun topicAndPriorityObject => topicAndPriorityObject.topic)

/-- The reduce of buildPosts: concatenate the posts of the sorted topics. -/
def postBuilderOf (articles : List KeywordObject) (sortedFinalTopics : List Int) :
    List PostObject :=
  sortedFinalTopics.foldl
    (fun accumulator current => accumulator ++ (articles.getD current.toNat dfltArticle).posts)
    []

/-- The activePriorityPosts reduce of buildPosts: count the priority posts
whose `active` flag is set (the `startDate` is not consulted here). -/
def activePriorityCount (priority : List PostObject) : Nat :=
  priority.foldl (fun accumulator post => accumulator + (if post.active then 1 else 0)) 0

/-- The per-post map of removeInactivePosts: parse the start date; a falsy
parse result (NaN, modelled `none`, or the number 0) leaves the copied post
unchanged, otherwise the `active` field is overwritten with the result of the
not-yet-active test (false for a future date, true otherwise). -/
def activationMap (dateParse : String → Option Int) (rightNow : Int)
    (post : PostObject) : PostObject :=
  match dateParse post.startDate with
  | none => post
  | some startDate =>
    if startDate ≠ 0 then
      { post with active := if startDate > rightNow then false else true }
    else post

/-- removeInactivePosts of the source: map the activation rewrite over the
list, then keep the posts whose `active` field is set. -/
def removeInactivePosts (dateParse : String → Option Int) (rightNow : Int)
    (postBuilder : List PostObject) : List PostObject :=
  (postBuilder.map (activationMap dateParse rightNow)).filter (fun post => post.active)

/-- JS `Map.prototype.set`: overwrite the value when the key is present
(keeping the key's original position), otherwise append a new entry. -/
def jsMapSet (m : List (String × PostObject)) (k : String) (v : PostObject) :
    List (String × PostObject) :=
  if m.any (fun e => decide (e.1 = k)) then
    m.map (fun e => if e.1 = k then (e.1, v) else e)
  else m ++ [(k, v)]

/-- removeDuplicatePosts of the source: insert every post into a Map keyed by
its title, then list the Map's values in key-insertion order. -/
def removeDuplicatePosts (activePosts : List PostObject) : List PostObject :=
  (activePosts.foldl (fun postMap post => jsMapSet postMap post.__editorItemTitle post) []).map
    (fun e => e.2)

/-- buildRender of the source: truncate to the device cap by assigning the
array's length when the post count exceeds the cap. -/
def buildRender (device : Device) (uniquePostArray : List PostObject) :
    List PostObject :=
  let numberOfPosts := uniquePostArray.length
  match device with
  | Device.desktop =>
    if numberOfPosts > maximumDesktopPosts then uniquePostArray.take maximumDesktopPosts
    else uniquePostArray
  | Device.mobile =>
    if numberOfPosts > maximumMobilePosts then uniquePostArray.take maximumMobilePosts
    else uniquePostArray

/-- One full pipeline run (resetInfoHub → buildKeywordList → searchCurrentURL
→ sortTopics → buildPosts → removeInactivePosts → removeDuplicatePosts →
buildRender), as a function of the configuration, the location parts, the
viewport width, the clock, the date parser and the previous component state.
On the zero-match escape hatch the run stops before the device classification,
leaving both refs untouched, with the posts already cleared by resetInfoHub. -/
def runPipeline (articles : List KeywordObject) (priority : List PostObject)
    (pathname search : String) (innerWidth : Nat) (rightNow : Int)
    (dateParse : String → Option Int) (prev : RunResult) : RunResult :=
  let keywordList := buildKeywordList articles
  let currentURL := jsToLowerCase (pathname ++ search)
  let topicBuilder := searchTopicBuilder keywordList currentURL
  if topicBuilder.length = 0 then
    { loading := false, posts := [], device := prev.device,
      activePriorityPosts := prev.activePriorityPosts }
  else
    let finalTopics := jsSetDedup topicBuilder
    let device := if innerWidth ≥ 1026 then Device.desktop else Device.mobile
    let sortedFinalTopics := sortTopics articles finalTopics
    let postBuilder := postBuilderOf articles sortedFinalTopics
    let priorityWithArticles := priority ++ postBuilder
    let count := activePriorityCount priority
    let activePosts := removeInactivePosts dateParse rightNow priorityWithArticles
    let uniquePosts := removeDuplicatePosts activePosts
    let finalPosts := buildRender device uniquePosts
    { loading := false, posts := finalPosts, device := device,
      activePriorityPosts := count }

/-- showInfoHub of the source: render is allowed unless the `ih` query
parameter is exactly the string "0". -/
def showInfoHub (search : String) : Bool :=
  let ih := urlParamsGet search "ih"
  if ih = some "0" then false else true

/-- The three render guards at the bottom of the component: still loading,
empty post list, or a post count equal to the `activePriorityPosts` ref all
render nothing; `none` models rendering the empty fragment. -/
def renderOutcome (st : RunResult) : Option (List PostObject) :=
  if st.loading then none
  else if st.posts.length = 0 then none
  else if st.posts.length = st.activePriorityPosts then none
  else some st.posts

/-- The rendered output of the component, with the showInfoHub opt-out guard
checked before everything else. -/
def componentRender (search : String) (st : RunResult) : Option (List PostObject) :=
  if showInfoHub search then renderOutcome st else none

/-- messageHandler of the source: the opt-out guard is re-checked on every
message, and only the `ebs-infohub-run` event name triggers a rerun
(resetInfoHub followed synchronously by the pipeline). -/
def messageHandler (articles : List KeywordObject) (priority : List PostObject)
    (pathname search : String) (innerWidth : Nat) (rightNow : Int)
    (dateParse : String → Option Int) (eventName : String) (st : RunResult) :
    RunResult :=
  if showInfoHub search then
    if eventName = "ebs-infohub-run" then
      runPipeline articles priority pathname search innerWidth rightNow dateParse st
    else st
  else st

/-- The Map-building fold of removeDuplicatePosts, with an explicit starting
map, for reasoning by induction. -/
def postMapFold (m : List (String × PostObject)) (l : List PostObject) :
    List (String × PostObject) :=
  l.foldl (fun postMap post => jsMapSet postMap post.__editorItemTitle post) m

/-- The last post of `l` carrying the title `t`, if any. -/
def lastOcc (t : String) (l : List PostObject) : Option PostObject :=
  l.reverse.find? (fun q => decide (q.__editorItemTitle = t))

/-- Render-suppression condition exactly as claim C3 states it, following the
specification's words (for comparison with the code's gate): no topic
matched; or the assembled, activation-filtered, deduplicated pre-truncation
sequence is empty; or that sequence's length equals the count of
PriorityPostList entries that survived the activation filter (active flag and
startDate check). -/
def specSuppressed (articles : List KeywordObject) (priority : List PostObject)
    (pathname search : String) (rightNow : Int) (dateParse : String → Option Int) :
    Bool :=
  let matched := matchedTopics articles pathname search
  let assembled := removeDuplicatePosts (removeInactivePosts dateParse rightNow
    (priority ++ postBuilderOf articles (sortTopics articles matched)))
  let prioritySurvivors := (removeInactivePosts dateParse rightNow priority).length
  matched.isEmpty || assembled.isEmpty || decide (assembled.length = prioritySurvivors)

/-! ### Concrete author configurations used by the concrete runs below -/

/-- Convenience builder for a visible post with the given title and start
date and blank image/url fields. -/
def mkPost (title startDate : String) : PostObject :=
  { startDate := startDate, active := true, __editorItemTitle := title, image := "", url := "" }

/-- A date parser with no parseable dates (every startDate is NaN). -/
def noDates : String → Option Int := fun _ => none

/-- Date parser for the C1 run: the post's date string parses to 500. -/
def c1dateParse : String → Option Int :=
  fun s => if s = "2020-01-01" then some 500 else none

/-- A post its editor switched off, carrying a valid past start date. -/
def c1post : PostObject :=
  { startDate := "2020-01-01", active := false, __editorItemTitle := "Hidden",
    image := "", url := "/h" }

/-- A pinned post titled "X". -/
def c2pinned : PostObject :=
  { startDate := "", active := true, __editorItemTitle := "X", image := "pin.png",
    url := "/pinned" }

/-- A topic-derived post also titled "X" but with different fields. -/
def c2topicPost : PostObject :=
  { startDate := "", active := true, __editorItemTitle := "X", image := "topic.png",
    url := "/topic" }

/-- Date parser for the C3 run: only the string "2999-01-01" parses (to
5000, a future instant relative to the run's clock 1000). -/
def c3dateParse : String → Option Int :=
  fun s => if s = "2999-01-01" then some 5000 else none

/-- Ten pinned posts, all with the active flag set: seven undated and three
scheduled for the future. -/
def c3priority : List PostObject :=
  [mkPost "P1" "", mkPost "P2" "", mkPost "P3" "", mkPost "P4" "", mkPost "P5" "",
   mkPost "P6" "", mkPost "P7" "", mkPost "F1" "2999-01-01", mkPost "F2" "2999-01-01",
   mkPost "F3" "2999-01-01"]

/-- One topic matching "sale" and contributing four organic posts. -/
def c3articles : List KeywordObject :=
  [{ __editorItemTitle := "Sales", keywords := [⟨"sale"⟩], topicType := 0,
     posts := [mkPost "O1" "", mkPost "O2" "", mkPost "O3" "", mkPost "O4" ""] }]

/-- A post owned by the tier-5 topic below. -/
def c4postA : PostObject := mkPost "Tier5 Post" ""

/-- A post owned by the tier-0 topic below. -/
def c4postB : PostObject := mkPost "Tier0 Post" ""

/-- Two topics discovered in configuration order with tiers 5 then 0 — the
claimed ascending-tier order would list the second topic first. -/
def c4articles : List KeywordObject :=
  [{ __editorItemTitle := "A", keywords := [⟨"aa"⟩], topicType := 5, posts := [c4postA] },
   { __editorItemTitle := "B", keywords := [⟨"bb"⟩], topicType := 0, posts := [c4postB] }]

/-- One topic matching "gravel" with one post. -/
def c5articles : List KeywordObject :=
  [{ __editorItemTitle := "T", keywords := [⟨"gravel"⟩], topicType := 2,
     posts := [mkPost "GravelGuide" ""] }]

/-- One topic whose only keyword "zz" matches nothing on the pages below. -/
def c6articles : List KeywordObject :=
  [{ __editorItemTitle := "Z", keywords := [⟨"zz"⟩], topicType := 1,
     posts := [mkPost "ZPost" ""] }]

/-- A visible post scheduled by the date string "sched". -/
def c7post : PostObject :=
  { startDate := "sched", active := true, __editorItemTitle := "Launch", image := "",
    url := "/l" }

/-- Date parser for the C7 runs: "sched" parses to the instant 7. -/
def c7dateParse : String → Option Int :=
  fun s => if s = "sched" then some 7 else none

/-- One topic carrying an empty keyword string. -/
def c9articles : List KeywordObject :=
  [{ __editorItemTitle := "E", keywords := [⟨""⟩], topicType := 3,
     posts := [mkPost "Anything" ""] }]

/-- Date parser for the C10 run: "epoch" parses to the numeric timestamp 0
and "past" to 9. -/
def c10dateParse : String → Option Int :=
  fun s => if s = "epoch" then some 0 else if s = "past" then some 9 else none

/-- An editor-hidden post whose start date parses to exactly 0. -/
def c10postEpoch : PostObject :=
  { startDate := "epoch", active := false, __editorItemTitle := "EpochPost", image := "",
    url := "/e" }

/-- An editor-hidden post whose start date parses to a nonzero past instant. -/
def c10postPast : PostObject :=
  { startDate := "past", active := false, __editorItemTitle := "PastPost", image := "",
    url := "/p" }

/-! ### Helper lemmas -/

/-- The boolean comparator, coerced to an integer, never returns a negative
value. -/
theorem comparisonFunction_nonneg (a b : TopicAndPriority) :
    0 ≤ comparisonFunction a b := by
  unfold comparisonFunction
  split <;> norm_num

/-- Under a comparator that never returns a negative value, the whole input
counts as one non-descending natural run. -/
theorem ascRunLength_of_nonneg {α : Type} (c : α → α → Int)
    (h : ∀ a b, 0 ≤ c a b) : ∀ l : List α, ascRunLength c l = l.length
  | [] => rfl
  | [_] => rfl
  | a :: b :: rest => by
    have ih := ascRunLength_of_nonneg c h (b :: rest)
    simp only [ascRunLength, if_pos (h b a), ih, List.length_cons]

/-- V8's sort leaves any input unchanged under a comparator that never
returns a negative value: the natural-run detection classifies the whole
array as already sorted. -/
theorem v8ArraySort_of_nonneg {α : Type} (c : α → α → Int)
    (h : ∀ a b, 0 ≤ c a b) (l : List α) : v8ArraySort c l = l := by
  unfold v8ArraySort
  rw [ascRunLength_of_nonneg c h l, if_pos rfl]

/-- Under the V8 model, `sortTopics` returns the matched topics in discovery
order, whatever their tiers are. -/
theorem sortTopics_eq (articles : List KeywordObject) (finalTopics : List Int) :
    sortTopics articles finalTopics = finalTopics := by
  simp only [sortTopics, v8ArraySort_of_nonneg comparisonFunction comparisonFunction_nonneg,
    List.map_map]
  exact List.map_id' finalTopics

/-- Membership in the Set-based dedup fold, generalized over the
accumulator. -/
theorem mem_setFold {α : Type} [DecidableEq α] (l : List α) (acc : List α) (a : α) :
    a ∈ l.foldl (fun acc t => if t ∈ acc then acc else acc ++ [t]) acc ↔
      a ∈ acc ∨ a ∈ l := by
  induction l generalizing acc with
  | nil => simp
  | cons x xs ih =>
    rw [List.foldl_cons, ih]
    by_cases hx : x ∈ acc
    · simp only [if_pos hx, List.mem_cons]
      constructor
      · rintro (h | h)
        · exact Or.inl h
        · exact Or.inr (Or.inr h)
      · rintro (h | rfl | h)
        · exact Or.inl h
        · exact Or.inl hx
        · exact Or.inr h
    · simp only [if_neg hx, List.mem_append, List.mem_singleton, List.mem_cons]
      tauto

/-- `[...new Set(l)]` has the same members as `l`. -/
theorem mem_jsSetDedup {α : Type} [DecidableEq α] (l : List α) (a : α) :
    a ∈ jsSetDedup l ↔ a ∈ l := by
  unfold jsSetDedup
  rw [mem_setFold]
  simp

/-- Deduplicating yields the empty list exactly on the empty list. -/
theorem jsSetDedup_eq_nil_iff {α : Type} [DecidableEq α] (l : List α) :
    jsSetDedup l = [] ↔ l = [] := by
  constructor
  · intro h
    cases l with
    | nil => rfl
    | cons x xs =>
      exfalso
      have hx : x ∈ jsSetDedup (x :: xs) := (mem_jsSetDedup (x :: xs) x).2 (by simp)
      rw [h] at hx
      simp at hx
  · rintro rfl
    rfl

/-- The Set-based dedup fold only ever appends to the accumulator. -/
theorem setFold_append {α : Type} [DecidableEq α] (l : List α) (acc : List α) :
    ∃ ks, l.foldl (fun acc t => if t ∈ acc then acc else acc ++ [t]) acc = acc ++ ks := by
  induction l generalizing acc with
  | nil => exact ⟨[], by simp⟩
  | cons x xs ih =>
    rw [List.foldl_cons]
    by_cases hx : x ∈ acc
    · rw [if_pos hx]; exact ih acc
    · rw [if_neg hx]
      obtain ⟨ks, hks⟩ := ih (acc ++ [x])
      exact ⟨[x] ++ ks, by rw [hks, List.append_assoc]⟩

/-- `jsSetDedup` of a concatenation starts with `jsSetDedup` of the first
part. -/
theorem jsSetDedup_append {α : Type} [DecidableEq α] (l₁ l₂ : List α) :
    ∃ ks, jsSetDedup (l₁ ++ l₂) = jsSetDedup l₁ ++ ks := by
  unfold jsSetDedup
  rw [List.foldl_append]
  exact setFold_append l₂ _

/-- The activation stage distributes over concatenation. -/
theorem removeInactivePosts_append (dateParse : String → Option Int) (rightNow : Int)
    (l₁ l₂ : List PostObject) :
    removeInactivePosts dateParse rightNow (l₁ ++ l₂) =
      removeInactivePosts dateParse rightNow l₁ ++ removeInactivePosts dateParse rightNow l₂ := by
  unfold removeInactivePosts
  rw [List.map_append, List.filter_append]

/-- `listStartsWith l p` holds exactly when `p` followed by some suffix
gives `l`. -/
theorem listStartsWith_iff (p l : List Char) :
    listStartsWith l p = true ↔ ∃ suf, l = p ++ suf := by
  induction p generalizing l with
  | nil =>
    constructor
    · intro _
      exact ⟨l, rfl⟩
    · intro _
      cases l <;> rfl
  | cons b p' ih =>
    cases l with
    | nil =>
      constructor
      · intro h
        simp [listStartsWith] at h
      · rintro ⟨suf, h⟩
        simp at h
    | cons a l' =>
      simp only [listStartsWith, Bool.and_eq_true, decide_eq_true_eq, ih, List.cons_append,
        List.cons.injEq]
      constructor
      · rintro ⟨rfl, suf, rfl⟩
        exact ⟨suf, rfl, rfl⟩
      · rintro ⟨suf, rfl, rfl⟩
        exact ⟨rfl, suf, rfl⟩

/-- JS `includes` holds exactly when the needle occurs contiguously: the
haystack splits as prefix ++ needle ++ suffix. -/
theorem listIncludes_iff (l p : List Char) :
    listIncludes l p = true ↔ ∃ pre suf, l = pre ++ p ++ suf := by
  induction l with
  | nil =>
    simp only [listIncludes]
    rw [listStartsWith_iff]
    constructor
    · rintro ⟨suf, h⟩
      exact ⟨[], suf, by simpa using h⟩
    · rintro ⟨pre, suf, h⟩
      have h' := h.symm
      simp only [List.append_assoc, List.append_eq_nil] at h'
      obtain ⟨rfl, rfl, rfl⟩ := h'
      exact ⟨[], rfl⟩
  | cons a rest ih =>
    simp only [listIncludes, Bool.or_eq_true, ih]
    rw [listStartsWith_iff]
    constructor
    · rintro (⟨suf, h⟩ | ⟨pre, suf, h⟩)
      · exact ⟨[], suf, by simpa using h⟩
      · exact ⟨a :: pre, suf, by simp [h]⟩
    · rintro ⟨pre, suf, h⟩
      cases pre with
      | nil =>
        exact Or.inl ⟨suf, by simpa using h⟩
      | cons x pre' =>
        right
        have h' : a :: rest = x :: (pre' ++ p ++ suf) := by simpa using h
        injection h' with _ h2
        exact ⟨pre', suf, h2⟩

/-- The empty keyword is included in every string. -/
theorem listIncludes_nil (l : List Char) : listIncludes l [] = true := by
  cases l <;> simp [listIncludes, listStartsWith]

/-- Membership in the flattened keyword list, with explicit start index. -/
theorem mem_buildKeywordListAux (articles : List KeywordObject) (n : Nat)
    (e : KeywordInfoObject) :
    e ∈ buildKeywordListAux articles n ↔
      ∃ j, j < articles.length ∧ e.topic = n + j ∧
        ∃ kw ∈ (articles.getD j dfltArticle).keywords,
          e.keyword = jsToLowerCase kw.__editorItemTitle := by
  induction articles generalizing n with
  | nil => simp [buildKeywordListAux]
  | cons a rest ih =>
    simp only [buildKeywordListAux, List.mem_append, List.mem_map, ih]
    constructor
    · rintro (⟨kw, hkw, rfl⟩ | ⟨j, hj, htopic, kw, hkw, hkey⟩)
      · exact ⟨0, by simp, by simp, kw, by simpa using hkw, rfl⟩
      · exact ⟨j + 1, by simpa using hj, by omega, kw, by simpa using hkw, hkey⟩
    · rintro ⟨j, hj, htopic, kw, hkw, hkey⟩
      cases j with
      | zero =>
        left
        refine ⟨kw, by simpa using hkw, ?_⟩
        have : e.topic = n := by omega
        cases e
        simp_all
      | succ j' =>
        right
        exact ⟨j', by simpa using hj, by omega, kw, by simpa using hkw, hkey⟩

/-- Membership in the topicBuilder list: exactly the topics one of whose
keyword entries is included in the current URL. -/
theorem mem_searchTopicBuilder (kl : List KeywordInfoObject) (curl : String) (t : Int) :
    t ∈ searchTopicBuilder kl curl ↔
      ∃ e ∈ kl, (e.topic : Int) = t ∧ jsIncludes curl e.keyword = true := by
  unfold searchTopicBuilder
  rw [List.mem_filter]
  simp only [List.mem_map, decide_eq_true_eq]
  constructor
  · rintro ⟨⟨e, he, hmap⟩, hne⟩
    by_cases hinc : jsIncludes curl e.keyword = true
    · rw [if_pos hinc] at hmap
      exact ⟨e, he, hmap, hinc⟩
    · rw [if_neg hinc] at hmap
      exact absurd hmap.symm hne
  · rintro ⟨e, he, rfl, hinc⟩
    refine ⟨⟨e, he, by rw [if_pos hinc]⟩, ?_⟩
    have : (0 : Int) ≤ (e.topic : Int) := Int.natCast_nonneg e.topic
    omega

/-- A topic index is in the deduplicated matched set exactly when the
lowercased current URL (path plus query) contains one of the topic's
lowercased keywords as a contiguous substring. -/
theorem mem_matchedTopics (articles : List KeywordObject) (pathname search : String)
    (i : Nat) :
    (i : Int) ∈ matchedTopics articles pathname search ↔
      i < articles.length ∧
        ∃ kw ∈ (articles.getD i dfltArticle).keywords,
          ∃ pre suf, (jsToLowerCase (pathname ++ search)).toList =
            pre ++ (jsToLowerCase kw.__editorItemTitle).toList ++ suf := by
  unfold matchedTopics
  rw [mem_jsSetDedup, mem_searchTopicBuilder]
  constructor
  · rintro ⟨e, he, htop, hinc⟩
    rw [buildKeywordList, mem_buildKeywordListAux] at he
    obtain ⟨j, hj, hetop, kw, hkw, hkey⟩ := he
    have hij : e.topic = i := by omega
    have hji : j = i := by omega
    subst hji
    refine ⟨hj, kw, hkw, ?_⟩
    have : jsIncludes (jsToLowerCase (pathname ++ search))
        (jsToLowerCase kw.__editorItemTitle) = true := by rwa [hkey] at hinc
    exact (listIncludes_iff _ _).1 this
  · rintro ⟨hi, kw, hkw, pre, suf, hsplit⟩
    refine ⟨⟨jsToLowerCase kw.__editorItemTitle, i⟩, ?_, by simp, ?_⟩
    · rw [buildKeywordList, mem_buildKeywordListAux]
      exact ⟨i, hi, by simp, kw, hkw, rfl⟩
    · exact (listIncludes_iff _ _).2 ⟨pre, suf, hsplit⟩

/-- removeDuplicatePosts lists the values of the title-keyed Map fold. -/
theorem removeDuplicatePosts_eq (l : List PostObject) :
    removeDuplicatePosts l = (postMapFold [] l).map (fun e => e.2) := rfl

/-- Any entry of `jsMapSet m k v` is the new entry or an old entry whose key
differs from `k`. -/
theorem mem_jsMapSet (m : List (String × PostObject)) (k : String) (v : PostObject)
    (e : String × PostObject) (he : e ∈ jsMapSet m k v) :
    e = (k, v) ∨ (e ∈ m ∧ e.1 ≠ k) := by
  unfold jsMapSet at he
  by_cases hany : m.any (fun e => decide (e.1 = k)) = true
  · rw [if_pos hany] at he
    obtain ⟨x, hx, hfx⟩ := List.mem_map.1 he
    by_cases hk : x.1 = k
    · left
      rw [if_pos hk] at hfx
      rw [← hfx, hk]
    · right
      rw [if_neg hk] at hfx
      rw [← hfx]
      exact ⟨hx, hk⟩
  · rw [if_neg hany] at he
    rcases List.mem_append.1 he with hm | hnew
    · right
      refine ⟨hm, fun hk => hany ?_⟩
      exact List.any_eq_true.2 ⟨e, hm, by simp [hk]⟩
    · left
      simpa using hnew

/-- `jsMapSet` acts on the key list like the Set-dedup step. -/
theorem jsMapSet_map_fst (m : List (String × PostObject)) (k : String) (v : PostObject) :
    (jsMapSet m k v).map Prod.fst =
      if k ∈ m.map Prod.fst then m.map Prod.fst else m.map Prod.fst ++ [k] := by
  have hmem : m.any (fun e => decide (e.1 = k)) = true ↔ k ∈ m.map Prod.fst := by
    rw [List.any_eq_true]
    simp only [List.mem_map, decide_eq_true_eq]
  unfold jsMapSet
  by_cases hany : m.any (fun e => decide (e.1 = k)) = true
  · rw [if_pos hany, if_pos (hmem.1 hany), List.map_map]
    refine List.map_congr_left ?_
    intro e _
    by_cases hk : e.1 = k
    · simp [hk]
    · simp [hk]
  · rw [if_neg hany, if_neg (fun h => hany (hmem.2 h)), List.map_append]
    rfl

/-- The keys of the Map fold are the Set-dedup of the titles, generalized
over the starting map. -/
theorem postMapFold_map_fst (l : List PostObject) (m : List (String × PostObject)) :
    (postMapFold m l).map Prod.fst =
      (l.map (fun p => p.__editorItemTitle)).foldl
        (fun acc t => if t ∈ acc then acc else acc ++ [t]) (m.map Prod.fst) := by
  induction l generalizing m with
  | nil => rfl
  | cons p rest ih =>
    show ((postMapFold (jsMapSet m p.__editorItemTitle p) rest).map Prod.fst) = _
    rw [ih, List.map_cons, List.foldl_cons, jsMapSet_map_fst]

/-- Every entry of the Map fold has its value's title as its key, provided
the starting map does. -/
theorem postMapFold_fst_eq_title (l : List PostObject) (m : List (String × PostObject))
    (hm : ∀ e ∈ m, e.1 = e.2.__editorItemTitle) :
    ∀ e ∈ postMapFold m l, e.1 = e.2.__editorItemTitle := by
  induction l generalizing m with
  | nil => exact hm
  | cons p rest ih =>
    intro e he
    refine ih (jsMapSet m p.__editorItemTitle p) ?_ e he
    intro x hx
    rcases mem_jsMapSet _ _ _ x hx with rfl | ⟨hxm, _⟩
    · rfl
    · exact hm x hxm

/-- When the tail already holds a last occurrence of the title, prepending a
post does not change it. -/
theorem lastOcc_cons_of_some (t : String) (p q : PostObject) (l : List PostObject)
    (h : lastOcc t l = some q) : lastOcc t (p :: l) = some q := by
  unfold lastOcc at h ⊢
  rw [List.reverse_cons, List.find?_append, h]
  rfl

/-- When the tail has no occurrence of the title, the prepended post decides
the last occurrence. -/
theorem lastOcc_cons_of_none (t : String) (p : PostObject) (l : List PostObject)
    (h : lastOcc t l = none) :
    lastOcc t (p :: l) = if p.__editorItemTitle = t then some p else none := by
  unfold lastOcc at h ⊢
  rw [List.reverse_cons, List.find?_append, h]
  by_cases hp : p.__editorItemTitle = t
  · simp [List.find?, hp]
  · simp [List.find?, hp]

/-- Every entry of the Map fold carries the last post of the scanned list
with its key's title, unless its key's title never occurs (in which case the
entry came from the starting map). -/
theorem postMapFold_lastOcc (l : List PostObject) (m : List (String × PostObject)) :
    ∀ e ∈ postMapFold m l,
      lastOcc e.1 l = some e.2 ∨ (lastOcc e.1 l = none ∧ e ∈ m) := by
  induction l generalizing m with
  | nil =>
    intro e he
    right
    exact ⟨rfl, he⟩
  | cons p rest ih =>
    intro e he
    have he' : e ∈ postMapFold (jsMapSet m p.__editorItemTitle p) rest := he
    rcases ih (jsMapSet m p.__editorItemTitle p) e he' with hsome | ⟨hnone, hem⟩
    · exact Or.inl (lastOcc_cons_of_some _ _ _ _ hsome)
    · rcases mem_jsMapSet _ _ _ e hem with rfl | ⟨hem', hne⟩
      · left
        rw [lastOcc_cons_of_none _ _ _ hnone]
        simp
      · right
        refine ⟨?_, hem'⟩
        rw [lastOcc_cons_of_none _ _ _ hnone, if_neg (fun hk => hne hk.symm)]

/-- The titles of the deduplicated list are the first occurrences of the
titles of the input, in first-occurrence order. -/
theorem removeDuplicatePosts_map_title (l : List PostObject) :
    (removeDuplicatePosts l).map (fun p => p.__editorItemTitle) =
      jsSetDedup (l.map (fun p => p.__editorItemTitle)) := by
  rw [removeDuplicatePosts_eq, List.map_map]
  have h1 : (postMapFold [] l).map (fun e => e.2.__editorItemTitle)
      = (postMapFold [] l).map Prod.fst := by
    refine List.map_congr_left ?_
    intro e he
    exact (postMapFold_fst_eq_title l [] (by simp) e he).symm
  calc (postMapFold [] l).map ((fun p => p.__editorItemTitle) ∘ (fun e => e.2))
      = (postMapFold [] l).map (fun e => e.2.__editorItemTitle) := rfl
    _ = (postMapFold [] l).map Prod.fst := h1
    _ = jsSetDedup (l.map (fun p => p.__editorItemTitle)) := by
        rw [postMapFold_map_fst l []]
        rfl

/-- Every post of the deduplicated list is the last occurrence of its title
in the input list. -/
theorem removeDuplicatePosts_lastOcc (l : List PostObject) :
    ∀ p ∈ removeDuplicatePosts l, lastOcc p.__editorItemTitle l = some p := by
  intro p hp
  rw [removeDuplicatePosts_eq] at hp
  obtain ⟨e, he, rfl⟩ := List.mem_map.1 hp
  have hkey := postMapFold_fst_eq_title l [] (by simp) e he
  rcases postMapFold_lastOcc l [] e he with hsome | ⟨_, hem⟩
  · rwa [hkey] at hsome
  · simp at hem

/-- Device cap: 10 on desktop, 6 on mobile. -/
def deviceCap (device : Device) : Nat :=
  match device with
  | Device.desktop => maximumDesktopPosts
  | Device.mobile => maximumMobilePosts

/-- buildRender is exactly a first-N-prefix truncation at the device cap. -/
theorem buildRender_eq_take (device : Device) (l : List PostObject) :
    buildRender device l = l.take (deviceCap device) := by
  cases device <;>
    · simp only [buildRender, deviceCap]
      split
      · rfl
      · rename_i h
        exact (List.take_of_length_le (Nat.le_of_not_lt h)).symm

/-- The zero-match escape hatch: when no keyword matches, the run ends with
no posts, `loading` cleared, and both refs untouched (in particular the
device classification is not performed). -/
theorem runPipeline_of_no_match (articles : List KeywordObject)
    (priority : List PostObject) (pathname search : String) (innerWidth : Nat)
    (rightNow : Int) (dateParse : String → Option Int) (prev : RunResult)
    (h : matchedTopics articles pathname search = []) :
    runPipeline articles priority pathname search innerWidth rightNow dateParse prev =
      { loading := false, posts := [], device := prev.device,
        activePriorityPosts := prev.activePriorityPosts } := by
  have htb : searchTopicBuilder (buildKeywordList articles)
      (jsToLowerCase (pathname ++ search)) = [] :=
    (jsSetDedup_eq_nil_iff _).1 h
  simp only [runPipeline]
  rw [htb]
  rfl

/-- The matched branch of the pipeline, written out stage by stage. -/
theorem runPipeline_of_match (articles : List KeywordObject)
    (priority : List PostObject) (pathname search : String) (innerWidth : Nat)
    (rightNow : Int) (dateParse : String → Option Int) (prev : RunResult)
    (h : matchedTopics articles pathname search ≠ []) :
    runPipeline articles priority pathname search innerWidth rightNow dateParse prev =
      { loading := false,
        posts := buildRender (if innerWidth ≥ 1026 then Device.desktop else Device.mobile)
          (removeDuplicatePosts (removeInactivePosts dateParse rightNow
            (priority ++ postBuilderOf articles
              (sortTopics articles (matchedTopics articles pathname search))))),
        device := if innerWidth ≥ 1026 then Device.desktop else Device.mobile,
        activePriorityPosts := activePriorityCount priority } := by
  have htb : searchTopicBuilder (buildKeywordList articles)
      (jsToLowerCase (pathname ++ search)) ≠ [] :=
    fun hnil => h (by rw [matchedTopics, hnil]; rfl)
  have hlen : (searchTopicBuilder (buildKeywordList articles)
      (jsToLowerCase (pathname ++ search))).length ≠ 0 :=
    fun h0 => htb (List.length_eq_zero.1 h0)
  simp only [runPipeline]
  rw [if_neg hlen]
  rfl

/-! ### The claims -/

/-- C1: the claim states the activation filter excludes a post exactly when
its active flag is false or its startDate parses to a valid instant strictly
in the future, so that a post with `active == false` is always excluded.
Evaluating removeInactivePosts at a post with the flag off and a valid past
start date (parse result 500, evaluation time 1000) shows the code overwrites
the flag with true and keeps the post: the filter of the latest source
version re-activates editor-hidden posts whose start date lies in the past,
contradicting the documented meaning of the "Visible?" flag. -/
theorem claim_C1_activation_reactivates_hidden_post :
    c1post.active = false ∧
    c1dateParse c1post.startDate = some 500 ∧
    (500 : Int) ≤ 1000 ∧
    removeInactivePosts c1dateParse 1000 [c1post] = [{ c1post with active := true }] := by
  decide

/-- C2: the claim states deduplication keeps exactly the first occurrence of
each distinct title with all of its field values, the pinned post surviving a
title collision.  On a pinned and a topic post sharing the title "X", the
Map-based code returns the topic post (the last occurrence's fields) in the
pinned slot, refuting the claim. -/
theorem claim_C2_counterexample :
    c2pinned.__editorItemTitle = c2topicPost.__editorItemTitle ∧
    c2pinned ≠ c2topicPost ∧
    removeDuplicatePosts [c2pinned, c2topicPost] = [c2topicPost] := by
  decide

/-- C2 (amended): deduplication is a single scan keeping one post per
distinct title, positioned at the title's first occurrence (the key order of
the Map), but carrying the field values of the title's last occurrence
(Map.set overwrites the value); on a pinned/topic title collision the
surviving entry sits in the pinned slot with the topic post's fields. -/
theorem claim_C2_amended (l : List PostObject) :
    (removeDuplicatePosts l).map (fun p => p.__editorItemTitle) =
      jsSetDedup (l.map (fun p => p.__editorItemTitle)) ∧
    ∀ p ∈ removeDuplicatePosts l, lastOcc p.__editorItemTitle l = some p :=
  ⟨removeDuplicatePosts_map_title l, removeDuplicatePosts_lastOcc l⟩

/-- C2 (witness): the amended characterization evaluated on the colliding
pair: the key order is the first-occurrence order of the titles, and the
surviving post is the last occurrence of its title. -/
theorem claim_C2_witness :
    (removeDuplicatePosts [c2pinned, c2topicPost]).map (fun p => p.__editorItemTitle) =
      jsSetDedup ([c2pinned, c2topicPost].map (fun p => p.__editorItemTitle)) ∧
    lastOcc c2topicPost.__editorItemTitle [c2pinned, c2topicPost] = some c2topicPost :=
  ⟨(claim_C2_amended [c2pinned, c2topicPost]).1,
   (claim_C2_amended [c2pinned, c2topicPost]).2 c2topicPost (by decide)⟩

/-- C4: the claim states matched topics are ordered by ascending
priorityTier with stable ties.  The comparator `(a, b) => a.priority >
b.priority` coerces a boolean and never returns a negative value, so under
V8's Array.prototype.sort (TimSort) the whole input counts as one
non-descending natural run and the array is returned unchanged: two matched
topics of tiers 5 then 0 stay in discovery order, and the tier-5 topic's
post precedes the tier-0 topic's post in the assembled output, refuting
ascending-tier ordering (ECMAScript leaves the order with an inconsistent
comparator implementation-defined, so the code guarantees no ordering). -/
theorem claim_C4_boolean_comparator_leaves_topics_unsorted :
    sortTopics c4articles [0, 1] = [0, 1] ∧
    (c4articles.getD 0 dfltArticle).topicType = 5 ∧
    (c4articles.getD 1 dfltArticle).topicType = 0 ∧
    (runPipeline c4articles [] "/aa-bb" "" 1200 0 noDates initialState).posts =
      [c4postA, c4postB] ∧
    c4postA ∈ (c4articles.getD 0 dfltArticle).posts ∧
    c4postB ∈ (c4articles.getD 1 dfltArticle).posts := by
  decide

/-- C3: the claim states the widget renders nothing exactly when no keyword
matched, or the assembled pre-truncation list is empty, or that list's length
equals the count of PriorityPostList entries that survived the activation
filter (flag and startDate).  Concrete run refuting it: ten pinned posts all
flagged active, three of them future-dated, plus four organic posts on a
desktop viewport — the claimed condition says render (the pre-truncation list
has 11 posts while 7 pinned posts survived the filter), but the code gate
compares the truncated length 10 against the flag-only count 10 and renders
nothing. -/
theorem claim_C3_counterexample :
    renderOutcome (runPipeline c3articles c3priority "/sale" "" 1200 1000 c3dateParse
      initialState) = none ∧
    specSuppressed c3articles c3priority "/sale" "" 1000 c3dateParse = false := by
  decide

/-- C3 (amended): after a pipeline run the widget renders nothing exactly
when no keyword matched, or the truncated post list is empty, or the
truncated list's length equals the number of PriorityPostList entries whose
active flag is set — the code's auxiliary count ignores startDate, and the
length it compares is the post-truncation one. -/
theorem claim_C3_amended (articles : List KeywordObject) (priority : List PostObject)
    (pathname search : String) (innerWidth : Nat) (rightNow : Int)
    (dateParse : String → Option Int) (prev : RunResult) :
    renderOutcome (runPipeline articles priority pathname search innerWidth rightNow
        dateParse prev) = none ↔
      (matchedTopics articles pathname search = [] ∨
       (runPipeline articles priority pathname search innerWidth rightNow dateParse
         prev).posts = [] ∨
       (runPipeline articles priority pathname search innerWidth rightNow dateParse
         prev).posts.length = activePriorityCount priority) := by
  by_cases h : matchedTopics articles pathname search = []
  · rw [runPipeline_of_no_match _ _ _ _ _ _ _ _ h]
    simp [renderOutcome, h]
  · rw [runPipeline_of_match _ _ _ _ _ _ _ _ h]
    simp only [renderOutcome, if_neg (by simp : ¬(false = true))]
    split_ifs with h1 h2 <;>
      simp_all [List.length_eq_zero]

/-- C5: the rendered output is the first-N prefix of the assembled, filtered,
deduplicated list, with N = 10 when the viewport width is at least 1026
(desktop) and N = 6 otherwise (mobile); its length never exceeds the device
cap; and whenever any post beyond the deduplicated priority-derived block
survives truncation, the whole priority-derived block is retained at the
front (truncation never drops a pinned slot while a topic-derived post
remains in the output). -/
theorem claim_C5_truncation (articles : List KeywordObject) (priority : List PostObject)
    (pathname search : String) (innerWidth : Nat) (rightNow : Int)
    (dateParse : String → Option Int) (prev : RunResult)
    (h : matchedTopics articles pathname search ≠ []) :
    (runPipeline articles priority pathname search innerWidth rightNow dateParse
        prev).posts =
      (removeDuplicatePosts (removeInactivePosts dateParse rightNow
        (priority ++ postBuilderOf articles (sortTopics articles
          (matchedTopics articles pathname search))))).take
        (if innerWidth ≥ 1026 then maximumDesktopPosts else maximumMobilePosts) ∧
    (runPipeline articles priority pathname search innerWidth rightNow dateParse
        prev).posts.length ≤
      (if innerWidth ≥ 1026 then maximumDesktopPosts else maximumMobilePosts) ∧
    ((removeDuplicatePosts (removeInactivePosts dateParse rightNow priority)).length <
        (runPipeline articles priority pathname search innerWidth rightNow dateParse
          prev).posts.length →
      ∃ rest,
        (runPipeline articles priority pathname search innerWidth rightNow dateParse
            prev).posts.map (fun p => p.__editorItemTitle) =
          (removeDuplicatePosts (removeInactivePosts dateParse rightNow priority)).map
              (fun p => p.__editorItemTitle) ++ rest) := by
  rw [runPipeline_of_match _ _ _ _ _ _ _ _ h]
  dsimp only
  have hcap : deviceCap (if innerWidth ≥ 1026 then Device.desktop else Device.mobile) =
      (if innerWidth ≥ 1026 then maximumDesktopPosts else maximumMobilePosts) := by
    split <;> rfl
  rw [buildRender_eq_take, hcap]
  refine ⟨rfl, ?_, ?_⟩
  · rw [List.length_take]
    exact inf_le_left
  · intro hlt
    rw [removeInactivePosts_append] at hlt ⊢
    obtain ⟨ks, hks⟩ := jsSetDedup_append
      ((removeInactivePosts dateParse rightNow priority).map (fun p => p.__editorItemTitle))
      ((removeInactivePosts dateParse rightNow
        (postBuilderOf articles (sortTopics articles
          (matchedTopics articles pathname search)))).map (fun p => p.__editorItemTitle))
    have hUtitle :
        (removeDuplicatePosts (removeInactivePosts dateParse rightNow priority ++
          removeInactivePosts dateParse rightNow
            (postBuilderOf articles (sortTopics articles
              (matchedTopics articles pathname search))))).map
            (fun p => p.__editorItemTitle) =
        (removeDuplicatePosts (removeInactivePosts dateParse rightNow priority)).map
            (fun p => p.__editorItemTitle) ++ ks := by
      rw [removeDuplicatePosts_map_title, List.map_append, hks,
        removeDuplicatePosts_map_title]
    have htk : (List.take (if innerWidth ≥ 1026 then maximumDesktopPosts else
        maximumMobilePosts)
        (removeDuplicatePosts (removeInactivePosts dateParse rightNow priority ++
          removeInactivePosts dateParse rightNow
            (postBuilderOf articles (sortTopics articles
              (matchedTopics articles pathname search)))))).length ≤
        (if innerWidth ≥ 1026 then maximumDesktopPosts else maximumMobilePosts) := by
      rw [List.length_take]
      exact inf_le_left
    have hlen : (removeDuplicatePosts (removeInactivePosts dateParse rightNow
        priority)).length ≤
        (if innerWidth ≥ 1026 then maximumDesktopPosts else maximumMobilePosts) :=
      le_of_lt (lt_of_lt_of_le hlt htk)
    refine ⟨ks.take ((if innerWidth ≥ 1026 then maximumDesktopPosts else
      maximumMobilePosts) -
      (removeDuplicatePosts (removeInactivePosts dateParse rightNow priority)).length), ?_⟩
    rw [List.map_take, hUtitle, List.take_append_eq_append_take,
      List.take_of_length_le (by rw [List.length_map]; exact hlen), List.length_map]

/-- C5 (witness): a concrete mobile run with one matched topic: the output
length respects the mobile cap. -/
theorem claim_C5_witness :
    matchedTopics c5articles "/gravel-bikes" "" ≠ [] ∧
    (runPipeline c5articles [] "/gravel-bikes" "" 800 0 noDates initialState).posts.length ≤
      (if (800 : Nat) ≥ 1026 then maximumDesktopPosts else maximumMobilePosts) :=
  ⟨by decide,
   (claim_C5_truncation c5articles [] "/gravel-bikes" "" 800 0 noDates initialState
     (by decide)).2.1⟩

/-- C6: a topic is in the match set exactly when the lowercased path-plus-
query URL contains one of its lowercased keywords as a contiguous substring
(no word boundary required), and when zero keywords match the pipeline
terminates early with the no-render outcome, before the device/viewport
classification happens: the run leaves the device ref at its previous
value. -/
theorem claim_C6_url_matching (articles : List KeywordObject) (priority : List PostObject)
    (pathname search : String) (innerWidth : Nat) (rightNow : Int)
    (dateParse : String → Option Int) (prev : RunResult) (i : Nat) :
    ((i : Int) ∈ matchedTopics articles pathname search ↔
      i < articles.length ∧
        ∃ kw ∈ (articles.getD i dfltArticle).keywords,
          ∃ pre suf, (jsToLowerCase (pathname ++ search)).toList =
            pre ++ (jsToLowerCase kw.__editorItemTitle).toList ++ suf) ∧
    (matchedTopics articles pathname search = [] →
      runPipeline articles priority pathname search innerWidth rightNow dateParse prev =
        { loading := false, posts := [], device := prev.device,
          activePriorityPosts := prev.activePriorityPosts } ∧
      renderOutcome (runPipeline articles priority pathname search innerWidth rightNow
        dateParse prev) = none) := by
  refine ⟨mem_matchedTopics articles pathname search i, fun h => ⟨?_, ?_⟩⟩
  · exact runPipeline_of_no_match _ _ _ _ _ _ _ _ h
  · rw [runPipeline_of_no_match _ _ _ _ _ _ _ _ h]
    rfl

/-- C6 (witness): a configuration whose only keyword "zz" misses the page
"/a": the matcher returns no topics and the run is the untouched no-render
escape. -/
theorem claim_C6_witness :
    matchedTopics c6articles "/a" "" = [] ∧
    runPipeline c6articles [] "/a" "" 800 0 noDates initialState =
      { loading := false, posts := [], device := initialState.device,
        activePriorityPosts := initialState.activePriorityPosts } :=
  ⟨by decide,
   ((claim_C6_url_matching c6articles [] "/a" "" 800 0 noDates initialState 0).2
     (by decide)).1⟩

/-- C7: the pipeline never writes into the author configuration — the same
configuration value feeds every run — so a post suppressed at an early clock
because its start date is still in the future is delivered again by a later
run of the same configuration once the clock passes the start date. -/
theorem claim_C7_no_mutation_across_runs (p : PostObject) (lbl kwText : String)
    (tt : Int) (pathname search : String) (innerWidth : Nat)
    (dateParse : String → Option Int) (T now1 now2 : Int) (prev1 prev2 : RunResult)
    (hT : dateParse p.startDate = some T) (hT0 : T ≠ 0) (h1 : now1 < T) (h2 : T ≤ now2)
    (hmatch : jsIncludes (jsToLowerCase (pathname ++ search))
      (jsToLowerCase kwText) = true) :
    (runPipeline [⟨lbl, [⟨kwText⟩], tt, [p]⟩] [] pathname search innerWidth now1
      dateParse prev1).posts = [] ∧
    (runPipeline [⟨lbl, [⟨kwText⟩], tt, [p]⟩] [] pathname search innerWidth now2
      dateParse prev2).posts = [{ p with active := true }] ∧
    renderOutcome (runPipeline [⟨lbl, [⟨kwText⟩], tt, [p]⟩] [] pathname search innerWidth
      now2 dateParse prev2) = some [{ p with active := true }] := by
  have hmt : matchedTopics [⟨lbl, [⟨kwText⟩], tt, [p]⟩] pathname search = [0] := by
    unfold matchedTopics searchTopicBuilder
    have hkl : buildKeywordList [⟨lbl, [⟨kwText⟩], tt, [p]⟩] =
        [⟨jsToLowerCase kwText, 0⟩] := rfl
    rw [hkl]
    simp only [List.map_cons, List.map_nil, hmatch, if_true]
    rfl
  have hne : matchedTopics [⟨lbl, [⟨kwText⟩], tt, [p]⟩] pathname search ≠ [] := by
    rw [hmt]
    simp
  have hpb : postBuilderOf [⟨lbl, [⟨kwText⟩], tt, [p]⟩]
      (sortTopics [⟨lbl, [⟨kwText⟩], tt, [p]⟩]
        (matchedTopics [⟨lbl, [⟨kwText⟩], tt, [p]⟩] pathname search)) = [p] := by
    rw [sortTopics_eq, hmt]
    rfl
  have hact1 : activationMap dateParse now1 p = { p with active := false } := by
    simp only [activationMap, hT]
    rw [if_pos hT0, if_pos (by omega : T > now1)]
  have hact2 : activationMap dateParse now2 p = { p with active := true } := by
    simp only [activationMap, hT]
    rw [if_pos hT0, if_neg (by omega : ¬T > now2)]
  have hrun1 := runPipeline_of_match [⟨lbl, [⟨kwText⟩], tt, [p]⟩] [] pathname search
    innerWidth now1 dateParse prev1 hne
  have hrun2 := runPipeline_of_match [⟨lbl, [⟨kwText⟩], tt, [p]⟩] [] pathname search
    innerWidth now2 dateParse prev2 hne
  rw [hpb] at hrun1 hrun2
  have hfilt1 : removeInactivePosts dateParse now1 ([] ++ [p]) = [] := by
    unfold removeInactivePosts
    rw [List.nil_append, List.map_cons, List.map_nil, hact1]
    rfl
  have hfilt2 : removeInactivePosts dateParse now2 ([] ++ [p]) =
      [{ p with active := true }] := by
    unfold removeInactivePosts
    rw [List.nil_append, List.map_cons, List.map_nil, hact2]
    rfl
  rw [hfilt1] at hrun1
  rw [hfilt2] at hrun2
  have hbr1 : buildRender (if innerWidth ≥ 1026 then Device.desktop else Device.mobile)
      (removeDuplicatePosts []) = [] := by
    split <;> rfl
  have hbr2 : buildRender (if innerWidth ≥ 1026 then Device.desktop else Device.mobile)
      (removeDuplicatePosts [{ p with active := true }]) = [{ p with active := true }] := by
    split <;> rfl
  rw [hbr1] at hrun1
  rw [hbr2] at hrun2
  rw [hrun1, hrun2]
  exact ⟨rfl, rfl, rfl⟩

/-- C7 (witness): the two-run scenario on a concrete configuration: the
scheduled post is withheld at clock 5 and shown at clock 9. -/
theorem claim_C7_witness :
    c7dateParse c7post.startDate = some 7 ∧
    (runPipeline [⟨"G", [⟨"k"⟩], 0, [c7post]⟩] [] "/k" "" 800 5 c7dateParse
      initialState).posts = [] ∧
    (runPipeline [⟨"G", [⟨"k"⟩], 0, [c7post]⟩] [] "/k" "" 800 9 c7dateParse
      initialState).posts = [{ c7post with active := true }] :=
  ⟨rfl,
   (claim_C7_no_mutation_across_runs c7post "G" "k" 0 "/k" "" 800 c7dateParse 7 5 9
     initialState initialState rfl (by decide) (by decide) (by decide) (by decide)).1,
   (claim_C7_no_mutation_across_runs c7post "G" "k" 0 "/k" "" 800 c7dateParse 7 5 9
     initialState initialState rfl (by decide) (by decide) (by decide) (by decide)).2.1⟩

/-- C8: when the page's query string carries the opt-out flag ih=0, the
component renders nothing regardless of any pipeline outcome, and a trigger
message arriving while the flag is present leaves the component state
untouched (no rerun output), the flag being re-evaluated inside the message
handler as well as at render time. -/
theorem claim_C8_opt_out (articles : List KeywordObject) (priority : List PostObject)
    (pathname search : String) (innerWidth : Nat) (rightNow : Int)
    (dateParse : String → Option Int) (eventName : String) (st : RunResult)
    (h : urlParamsGet search "ih" = some "0") :
    componentRender search st = none ∧
    messageHandler articles priority pathname search innerWidth rightNow dateParse
      eventName st = st := by
  have hshow : showInfoHub search = false := by
    unfold showInfoHub
    rw [h]
    rfl
  constructor
  · unfold componentRender
    rw [hshow]
    rfl
  · unfold messageHandler
    rw [hshow]
    rfl

/-- C8 (witness): on the query string "?ih=0" the component renders nothing
and the run-trigger message is ignored. -/
theorem claim_C8_witness :
    urlParamsGet "?ih=0" "ih" = some "0" ∧
    componentRender "?ih=0" initialState = none ∧
    messageHandler [] [] "" "?ih=0" 800 0 noDates "ebs-infohub-run" initialState =
      initialState :=
  ⟨by decide,
   (claim_C8_opt_out [] [] "" "?ih=0" 800 0 noDates "ebs-infohub-run" initialState
     (by decide)).1,
   (claim_C8_opt_out [] [] "" "?ih=0" 800 0 noDates "ebs-infohub-run" initialState
     (by decide)).2⟩

/-- C9: a topic containing a keyword whose text is the empty string matches
every URL, since the empty string is a substring of everything, so such a
topic contributes its posts on every page. -/
theorem claim_C9_empty_keyword_matches_everything (articles : List KeywordObject)
    (pathname search : String) (i : Nat) (hi : i < articles.length)
    (hkw : ∃ kw ∈ (articles.getD i dfltArticle).keywords, kw.__editorItemTitle = "") :
    (i : Int) ∈ matchedTopics articles pathname search := by
  obtain ⟨kw, hkwmem, hempty⟩ := hkw
  refine (mem_matchedTopics articles pathname search i).2 ⟨hi, kw, hkwmem, ?_⟩
  rw [hempty]
  exact ⟨[], (jsToLowerCase (pathname ++ search)).toList, by simp [jsToLowerCase]⟩

/-- C9 (witness): the empty-keyword topic is matched on an arbitrary page. -/
theorem claim_C9_witness :
    (0 : Int) ∈ matchedTopics c9articles "/any/page" "?q=1" :=
  claim_C9_empty_keyword_matches_everything c9articles "/any/page" "?q=1" 0 (by decide)
    ⟨⟨""⟩, by decide, rfl⟩

/-- C10: a startDate parsing to the numeric timestamp 0 (the epoch instant)
is falsy, so the scheduling branch is skipped exactly as for an unparseable
date and the editor's active flag alone decides; for every other valid past
date the branch overwrites the flag with true, making the epoch the only
valid-past-date case in which the flag is consulted by the activation
step. -/
theorem claim_C10_epoch_start_date (dateParse : String → Option Int) (rightNow : Int)
    (p q : PostObject) (t : Int)
    (hp : dateParse p.startDate = some 0)
    (hq : dateParse q.startDate = some t) (ht : t ≠ 0) (hpast : t ≤ rightNow) :
    activationMap dateParse rightNow p = p ∧
    removeInactivePosts dateParse rightNow [p] = (if p.active then [p] else []) ∧
    activationMap dateParse rightNow q = { q with active := true } := by
  have hmap : activationMap dateParse rightNow p = p := by
    unfold activationMap
    rw [hp]
    rfl
  refine ⟨hmap, ?_, ?_⟩
  · unfold removeInactivePosts
    rw [List.map_cons, List.map_nil, hmap]
    cases hact : p.active <;> simp [List.filter, hact]
  · simp only [activationMap, hq]
    rw [if_pos ht, if_neg (by omega : ¬t > rightNow)]

/-- C10 (witness): with the flag off, the epoch-dated post stays governed by
the flag (it is dropped), while the past-dated post is forced visible. -/
theorem claim_C10_witness :
    c10dateParse c10postEpoch.startDate = some 0 ∧
    activationMap c10dateParse 100 c10postEpoch = c10postEpoch ∧
    activationMap c10dateParse 100 c10postPast = { c10postPast with active := true } :=
  ⟨rfl,
   (claim_C10_epoch_start_date c10dateParse 100 c10postEpoch c10postPast 9 rfl rfl
     (by decide) (by decide)).1,
   (claim_C10_epoch_start_date c10dateParse 100 c10postEpoch c10postPast 9 rfl rfl
     (by decide) (by decide)).2.2⟩

end InfoHub
